import Mathlib

set_option maxRecDepth 100000

/-!
Verification of the wikifacts-bench evaluation pipeline.

This file gives a shallow embedding, in Lean 4, of the core components of the
repository:

* `src/rag_client.py` — the structured judgment client (`SimpleRagClient._call`
  retry/repair protocol, `FactOnlyClient.call_llm`, `_strip_idk`,
  `_translate_cached`);
* `src/evaluate.py`  — the checkpointed orchestrator (`main`'s remaining-work
  computation, the `as_completed` result loop, checkpoint writes);
* `src/retrieval.py` — the fragment retriever (`RelevantRetriever.__init__`,
  `split`, `get_embeddings`, `retrieve`).

Python strings are modelled as `List Char`; Python dicts as association lists
with in-place-update semantics (`dictSet`); fallible Python code as `Except`
values carrying an explicit error constructor mirroring the Python exception
class.  External collaborators (the chat endpoint, `json.loads`, the Google
translator, the spaCy lemmatizer, the embedding encoder) are parameters of the
definitions that call them.  Machine floats appear nowhere in the verified
claims; similarity scores are modelled over `ℚ`.
-/

/-- Python `str.strip()` whitespace set (ASCII): space, \t, \n, \r, \x0b, \x0c. -/
def isPySpace (c : Char) : Bool :=
  c = ' ' || c = '\t' || c = '\n' || c = '\r' || c = '\x0b' || c = '\x0c'

/-- Python `str.strip()` with no argument: drop leading and trailing whitespace. -/
def pyStrip (xs : List Char) : List Char :=
  ((xs.dropWhile isPySpace).reverse.dropWhile isPySpace).reverse

/-- ASCII `str.lower()` on one character (the repository's answers are ASCII). -/
def lowerChar (c : Char) : Char :=
  if 'A' ≤ c ∧ c ≤ 'Z' then Char.ofNat (c.toNat + 32) else c

/-- Python `str.lower()` (ASCII fragment). -/
def pyLower (xs : List Char) : List Char := xs.map lowerChar

/-- Python `str.lower()` on a Lean `String`. -/
def pyLowerS (s : String) : String := String.mk (pyLower s.data)

/-- Tests whether `pat` is a prefix of `xs` (decidable, structural). -/
def isPrefixL : List Char → List Char → Bool
  | [], _ => true
  | _ :: _, [] => false
  | a :: as, b :: bs => a = b && isPrefixL as bs

/-- Python `pat in s` substring test: some contiguous window of `xs` equals `pat`. -/
def containsSub (pat : List Char) : List Char → Bool
  | [] => pat.isEmpty
  | x :: rest => isPrefixL pat (x :: rest) || containsSub pat rest

/-- Fueled worker for `replaceAll` (left-to-right, non-overlapping, as Python
`str.replace`). The fuel is an upper bound on the number of scan steps. -/
def replaceAllF (pat rep : List Char) : Nat → List Char → List Char
  | 0, xs => xs
  | _ + 1, [] => []
  | f + 1, x :: rest =>
    if isPrefixL pat (x :: rest) && !pat.isEmpty then
      rep ++ replaceAllF pat rep f ((x :: rest).drop pat.length)
    else
      x :: replaceAllF pat rep f rest

/-- Python `text.replace(pat, rep)` for nonempty `pat`. -/
def replaceAll (pat rep xs : List Char) : List Char :=
  replaceAllF pat rep xs.length xs

/-- The opening brace character, written by code point to keep string literals
brace-free. -/
def lbrace : Char := Char.ofNat 123

/-- The closing brace character. -/
def rbrace : Char := Char.ofNat 125

/-- Python `str.format` with positional `\x7b\x7d` placeholders: single pass over the
template, splicing each successive argument verbatim (spliced text is not
re-scanned, exactly as in CPython). Surplus placeholders are left in place
(the repository's templates always match their argument count). -/
def formatL : List Char → List (List Char) → List Char
  | [], _ => []
  | [c], _ => [c]
  | c :: c2 :: rest, args =>
    if c = lbrace ∧ c2 = rbrace then
      match args with
      | a :: as => a ++ formatL rest as
      | [] => c :: c2 :: formatL rest []
    else
      c :: formatL (c2 :: rest) args

/-- Python `sep.join(parts)`. -/
def joinSep (sep : List Char) : List (List Char) → List Char
  | [] => []
  | [c] => c
  | c :: c2 :: rest => c ++ sep ++ joinSep sep (c2 :: rest)

/-- Python dict lookup `d[k]` / `k in d` support: first (and only, since
`dictSet` keeps keys unique when they were unique) binding of `q`. -/
def dictGet {κ α : Type} [DecidableEq κ] : List (κ × α) → κ → Option α
  | [], _ => none
  | (k, v) :: rest, q => if k = q then some v else dictGet rest q

/-- Python `k in d`. -/
def dictHasKey {κ α : Type} [DecidableEq κ] (d : List (κ × α)) (q : κ) : Bool :=
  (dictGet d q).isSome

/-- Python dict assignment `d[k] = v`: update in place if the key exists,
else append the new binding at the end (CPython insertion order). -/
def dictSet {κ α : Type} [DecidableEq κ] : List (κ × α) → κ → α → List (κ × α)
  | [], q, v => [(q, v)]
  | (k, w) :: rest, q, v =>
    if k = q then (k, v) :: rest else (k, w) :: dictSet rest q v

/-! ## JSON values and the client's parse pipeline

`JVal` models the Python values `json.loads` can yield (floats omitted:
no verified claim involves them). -/
/-- A parsed JSON value. -/
inductive JVal : Type
  | obj (kvs : List (String × JVal))
  | arr (elems : List JVal)
  | str (s : String)
  | num (n : Int)
  | bool (b : Bool)
  | null

/-- Python `key in resp_json` (line 103 of `src/rag_client.py`).  For a dict
this is a key test, for a list an element-equality test, for a string a
substring test; for a number / bool / None, Python raises `TypeError`
(modelled as `.error ()`), which is caught by the *outer* `except` of
`_call`, not the inner `except json.JSONDecodeError`. -/
def jsonHasKey (j : JVal) (k : String) : Except Unit Bool :=
  match j with
  | .obj kvs => .ok (kvs.any (fun p => p.1 = k))
  | .arr elems => .ok (elems.any (fun e => match e with | .str s => decide (s = k) | _ => false))
  | .str s => .ok (containsSub k.data s.data)
  | .num _ => .error ()
  | .bool _ => .error ()
  | .null => .error ()

/-- JSON whitespace as accepted by `json.loads`: space, \t, \n, \r. -/
def isJsonWs (c : Char) : Bool := c = ' ' || c = '\t' || c = '\n' || c = '\r'

/-- Skip JSON whitespace. -/
def skipJWs (cs : List Char) : List Char := cs.dropWhile isJsonWs

/-- Scan a JSON string body up to the closing quote (no escape support; the
parser rejects inputs with backslashes, see `miniJson`). -/
def parseStrAux : List Char → List Char → Option (String × List Char)
  | [], _ => none
  | c :: rest, acc =>
    if c = '\"' then some (String.mk acc.reverse, rest)
    else if c = '\\' then none
    else parseStrAux rest (c :: acc)

/-- Parse one JSON string literal. -/
def parseStr : List Char → Option (String × List Char)
  | [] => none
  | c :: rest => if c = '\"' then parseStrAux rest [] else none

/-- Parse the members of a flat JSON object with string keys and string
values, starting right after the opening brace (whitespace skipped). -/
def parseMembers : Nat → List Char → Option (List (String × JVal) × List Char)
  | 0, _ => none
  | f + 1, cs =>
    match parseStr cs with
    | none => none
    | some (k, r1) =>
      match skipJWs r1 with
      | [] => none
      | c :: r2 =>
        if c = ':' then
          match parseStr (skipJWs r2) with
          | none => none
          | some (v, r3) =>
            match skipJWs r3 with
            | [] => none
            | e :: r4 =>
              if e = ',' then
                match parseMembers f (skipJWs r4) with
                | some (kvs, rem) => some ((k, JVal.str v) :: kvs, rem)
                | none => none
              else if e = rbrace then some ([(k, JVal.str v)], r4)
              else none
        else none

/-- Restricted model of Python `json.loads`: succeeds exactly on a flat JSON
object with string keys and escape-free string values (and on the empty
object), with whole-input consumption as in `json.loads` (trailing
non-whitespace raises `Extra data`).  It agrees with `json.loads` on every
concrete input used in the theorems below; the general protocol theorems
quantify over an arbitrary `loads` function instead of relying on it. -/
def miniJson (cs : List Char) : Option JVal :=
  match skipJWs cs with
  | [] => none
  | c :: rest =>
    if c = lbrace then
      match skipJWs rest with
      | [] => none
      | d :: r2 =>
        if d = rbrace then
          if (skipJWs r2).isEmpty then some (.obj []) else none
        else
          match parseMembers cs.length (skipJWs rest) with
          | some (kvs, rem) => if (skipJWs rem).isEmpty then some (.obj kvs) else none
          | none => none
    else none

/-- The fenced-code-block tag of the extraction regex of
`src/rag_client.py` line 98. -/
def fenceTag : List Char := "```json".data

/-- Shortest brace block: given the text right after an opening brace, return
the characters up to and including the first closing brace (the non-greedy
`\x7b[\s\S]*?\x7d` of the regex). -/
def splitBrace : List Char → Option (List Char)
  | [] => none
  | c :: rest =>
    if c = rbrace then some [c]
    else match splitBrace rest with
      | some body => some (c :: body)
      | none => none

/-- Non-greedy brace block inside a fenced ```json ... ``` region: expand up
to the first closing brace whose remainder matches `\s*` followed by three
backticks (the continuation of regex alternative 1). -/
def fencedScan : Nat → List Char → List Char → Option (List Char)
  | 0, _, _ => none
  | _ + 1, _, [] => none
  | f + 1, acc, c :: rest =>
    if c = rbrace then
      if isPrefixL "```".data (skipJWs rest) then some (acc.reverse ++ [c])
      else fencedScan f (c :: acc) rest
    else fencedScan f (c :: acc) rest

/-- Leftmost match of the extraction regex
`r"```json\s*(\x7b[\s\S]*?\x7d)\s*```|(\x7b[\s\S]*?\x7d)"`: at each position try
alternative 1 (fenced block) then alternative 2 (bare shortest brace
block); the matched group is returned. -/
def scanEx : Nat → List Char → Option (List Char)
  | 0, _ => none
  | _ + 1, [] => none
  | f + 1, x :: rest =>
    (if isPrefixL fenceTag (x :: rest) then
        match skipJWs ((x :: rest).drop fenceTag.length) with
        | y :: zs => if y = lbrace then (fencedScan zs.length [] zs).map (fun b => y :: b) else none
        | [] => none
      else none).orElse
    (fun _ =>
      (if x = lbrace then (splitBrace rest).map (fun b => x :: b) else none).orElse
      (fun _ => scanEx f rest))

/-- Lines 98–99 of `src/rag_client.py`: extract a JSON candidate from the raw
model output; if the regex finds no match, the candidate is the raw text
itself. -/
def extractJson (raw : List Char) : List Char :=
  (scanEx (raw.length + 1) raw).getD raw

/-! ## Prompt templates and `_strip_idk` (src/rag_client.py lines 62–67, 128–319)

Apostrophes and braces inside the template literals are written with the
escapes `\x27` (apostrophe), `\x7b` / `\x7d` (braces). -/
/-- The `FactOnlyClient.call_llm` system template (lines 130–141). -/
def template_sys_fact : List Char :=
  ("You are solving a factual verification task.\nYou will be given a factual statement or a question that may start with \x27Did you know...\x27.\nYour task is to verify whether the statement is true, false, or uncertain based on your knowledge.\nAnswer with \x27yes\x27 if true, \x27no\x27 if false, or \x27idk\x27 if uncertain.\nRespond strictly in JSON format with the following keys:\n  - \x27answer\x27: one of \x27yes\x27, \x27no\x27, \x27idk\x27\n  - \x27reasoning\x27: your reasoning for the answer\nProvide the reasoning in the same language as the fact and articles.\nDo not include any additional text outside the JSON.\nThe \x27reasoning\x27 field must be only your explanation in the same language as the input; do not include translations, quoted statements, or any additional markup.\n").data

/-- The `FactOnlyClient.call_llm` user template (line 142). -/
def template_user_fact : List Char :=
  ("Is the following statement factually correct: \"\x7b\x7d\"?").data

/-- The `LinkedAbstractClient.call_llm` system template (lines 191–202). -/
def template_sys_linked : List Char :=
  ("You are solving a factual verification task.\nYou will be given a factual statement or a question that may start with \x27Did you know...\x27 and abstracts of Wikipedia articles.\nUse both your general knowledge and the abstracts to determine factual correctness.\nAnswer with \x27yes\x27 if true, \x27no\x27 if false, or \x27idk\x27 if uncertain.\nRespond strictly in JSON format with the following keys:\n  - \x27answer\x27: one of \x27yes\x27, \x27no\x27, \x27idk\x27\n  - \x27reasoning\x27: your reasoning for the answer\nProvide the reasoning in the same language as the fact and abstracts.\nDo not include any additional text outside the JSON.\nThe \x27reasoning\x27 field must be only your explanation in the same language as the input; do not include translations, quoted statements, or any additional markup.\n").data

/-- The `LinkedAbstractClient.call_llm` user template (lines 203–207). -/
def template_user_linked : List Char :=
  ("Is the following statement factually correct based on your knowledge and the abstracts below?\n\nFACT:\n\"\x7b\x7d\"\n\nABSTRACTS:\n\n\x7b\x7d").data

/-- The `RelevantAbstractClient.call_llm` system template (lines 257–268);
textually identical to the linked variant. -/
def template_sys_relevant : List Char :=
  ("You are solving a factual verification task.\nYou will be given a factual statement or a question that may start with \x27Did you know...\x27 and abstracts of Wikipedia articles.\nUse both your general knowledge and the abstracts to determine factual correctness.\nAnswer with \x27yes\x27 if true, \x27no\x27 if false, or \x27idk\x27 if uncertain.\nRespond strictly in JSON format with the following keys:\n  - \x27answer\x27: one of \x27yes\x27, \x27no\x27, \x27idk\x27\n  - \x27reasoning\x27: your reasoning for the answer\nProvide the reasoning in the same language as the fact and abstracts.\nDo not include any additional text outside the JSON.\nThe \x27reasoning\x27 field must be only your explanation in the same language as the input; do not include translations, quoted statements, or any additional markup.\n").data

/-- The `RelevantAbstractClient.call_llm` user template (lines 269–273). -/
def template_user_relevant : List Char :=
  ("Is the following statement factually correct based on your knowledge and the abstracts below?\n\nFACT:\n\"\x7b\x7d\"\n\nRELEVANT ABSTRACTS:\n\n\x7b\x7d").data

/-- The literal tail of the first `_strip_idk` pattern
`r",\s*or 'idk' if uncertain\.?"` after the comma and whitespace. -/
def idkTail : List Char := ("or \x27idk\x27 if uncertain").data

/-- Try the regex `,\s*or 'idk' if uncertain\.?` at the current position:
a comma, then a greedy run of whitespace, then the literal tail, then an
optional period.  Returns the remainder after the match. -/
def matchIdkPat : List Char → Option (List Char)
  | [] => none
  | c :: rest =>
    if c = ',' then
      let rest2 := rest.dropWhile isPySpace
      if isPrefixL idkTail rest2 then
        match rest2.drop idkTail.length with
        | '.' :: r => some r
        | r => some r
      else none
    else none

/-- Fueled scan for `re.sub(r",\s*or 'idk' if uncertain\.?", "", text)`:
leftmost, non-overlapping matches are removed. -/
def subIdkF : Nat → List Char → List Char
  | 0, xs => xs
  | _ + 1, [] => []
  | f + 1, x :: rest =>
    match matchIdkPat (x :: rest) with
    | some rem => subIdkF f rem
    | none => x :: subIdkF f rest

/-- Model of `SimpleRagClient._strip_idk` (lines 62–67): the `re.sub` above, then the
two plain replaces, in source order. -/
def stripIdk (t : List Char) : List Char :=
  let t1 := subIdkF t.length t
  let t2 := replaceAll ("one of \x27yes\x27, \x27no\x27, \x27idk\x27").data ("one of \x27yes\x27, \x27no\x27").data t1
  replaceAll (", or \x27idk\x27").data [] t2

/-- The system message of the fact-only client with `translator = None`
(lines 143–148): the template, stripped when `allow_idk` is false. -/
def sysPromptFact (allow_idk : Bool) : List Char :=
  if allow_idk then template_sys_fact else stripIdk template_sys_fact

/-- The user template of the fact-only client after optional stripping. -/
def userTemplateFact (allow_idk : Bool) : List Char :=
  if allow_idk then template_user_fact else stripIdk template_user_fact

/-- The user prompt of the fact-only client (line 152): the (possibly
stripped) template with the fact spliced in by `str.format`. -/
def userPromptFact (allow_idk : Bool) (fact : List Char) : List Char :=
  formatL (userTemplateFact allow_idk) [fact]

/-- Linked-mode system message (translator absent). -/
def sysPromptLinked (allow_idk : Bool) : List Char :=
  if allow_idk then template_sys_linked else stripIdk template_sys_linked

/-- Linked-mode user template after optional stripping. -/
def userTemplateLinked (allow_idk : Bool) : List Char :=
  if allow_idk then template_user_linked else stripIdk template_user_linked

/-- Linked-mode user prompt (line 218): `template.format(fact, abstracts)`
where `abstracts` is `"\n\n".join(contexts)` (line 190). -/
def userPromptLinked (allow_idk : Bool) (fact : List Char) (contexts : List (List Char)) : List Char :=
  formatL (userTemplateLinked allow_idk) [fact, joinSep "\n\n".data contexts]

/-- Relevant-mode system message (translator absent). -/
def sysPromptRelevant (allow_idk : Bool) : List Char :=
  if allow_idk then template_sys_relevant else stripIdk template_sys_relevant

/-- Relevant-mode user template after optional stripping. -/
def userTemplateRelevant (allow_idk : Bool) : List Char :=
  if allow_idk then template_user_relevant else stripIdk template_user_relevant

/-- Relevant-mode user prompt (line 284). -/
def userPromptRelevant (allow_idk : Bool) (fact : List Char) (contexts : List (List Char)) : List Char :=
  formatL (userTemplateRelevant allow_idk) [fact, joinSep "\n\n".data contexts]

/-! ## The judgment-call protocol (`SimpleRagClient._call`, lines 79–125)

The chat endpoint and `json.loads` are external collaborators and appear as
parameters: `chat` maps the attempt number and the accumulated message
sequence to either a transport failure or raw completion text, and `loads`
is the JSON parser.  `miniJson` is a concrete `loads` used for closed runs. -/
/-- One role-tagged chat message. -/
structure Msg where
  role : String
  content : List Char

/-- Result of `_call`, with provenance: `accepted` is the in-loop return of
line 104 (recording the accepting round and the total number of endpoint
calls made), `finalParse` is the post-loop bare `json.loads(last_raw)` of
line 123, and `failed` is the `return None` of line 125. -/
inductive CallRes
  | accepted (j : JVal) (round : Nat) (calls : Nat)
  | finalParse (j : JVal) (calls : Nat)
  | failed (calls : Nat)

/-- The corrective system message of lines 108–111. -/
def fallbackContentE : List Char :=
  ("Your last response was not valid JSON with keys \x27answer\x27 and \x27reasoning\x27. Please reply strictly with a JSON object containing exactly these two keys.").data

/-- The retry loop of `_call` (lines 85–125).  Each round makes one endpoint
call.  A transport failure (outer `except`) retries with unchanged
messages; a parse failure or missing key appends the corrective system
message (translated when a translator is present) and retries; a
`TypeError` raised by `'answer' in resp_json` on a non-container value is
caught by the outer `except`, so no corrective message is appended.
`last_raw` is updated on every successful endpoint call (line 96). -/
def callAux (chat : Nat → List Msg → Except Unit (List Char))
    (loads : List Char → Option JVal) (trF : Option (List Char → List Char)) :
    Nat → Nat → Nat → List Msg → List Char → CallRes
  | 0, _, n, _, lastRaw =>
    match loads lastRaw with
    | some j => .finalParse j n
    | none => .failed n
  | r + 1, round, n, msgs, lastRaw =>
    match chat round msgs with
    | .error _ => callAux chat loads trF r (round + 1) (n + 1) msgs lastRaw
    | .ok raw0 =>
      let raw := pyStrip raw0
      let fb := match trF with | none => fallbackContentE | some t => t fallbackContentE
      let msgs' := msgs ++ [⟨"system", fb⟩]
      match loads (extractJson raw) with
      | some j =>
        match jsonHasKey j "answer" with
        | .error _ => callAux chat loads trF r (round + 1) (n + 1) msgs raw
        | .ok a =>
          if a then
            match jsonHasKey j "reasoning" with
            | .ok b =>
              if b then .accepted j round (n + 1)
              else callAux chat loads trF r (round + 1) (n + 1) msgs' raw
            | .error _ => callAux chat loads trF r (round + 1) (n + 1) msgs raw
          else callAux chat loads trF r (round + 1) (n + 1) msgs' raw
      | none => callAux chat loads trF r (round + 1) (n + 1) msgs' raw

/-- Model of `SimpleRagClient._call`: run the loop for `max_attempts` rounds starting
from the given message sequence, with `last_raw = ""`. -/
def SimpleRagClient_call (chat : Nat → List Msg → Except Unit (List Char))
    (loads : List Char → Option JVal) (trF : Option (List Char → List Char))
    (max_attempts : Nat) (messages : List Msg) : CallRes :=
  callAux chat loads trF max_attempts 1 0 messages []

/-- What `_call` returns to its caller: the parsed value, or `None`. -/
def CallRes.toResp : CallRes → Option JVal
  | .accepted j _ _ => some j
  | .finalParse j _ => some j
  | .failed _ => none

/-- The two fixed few-shot exchanges of `FactOnlyClient.call_llm`
(lines 154–173); the example user turns reuse the (possibly stripped)
user template. -/
def fewShotsFact (allow_idk : Bool) : List Msg :=
  [⟨"user", formatL (userTemplateFact allow_idk) [("London is the capital of Great Britain.").data]⟩,
   ⟨"assistant", ("\x7b\"answer\": \"yes\", \"reasoning\": \"London is the capital of the United Kingdom.\"\x7d").data⟩,
   ⟨"user", formatL (userTemplateFact allow_idk) [("Did you know that the Sun revolves around the Earth?").data]⟩,
   ⟨"assistant", ("\x7b\"answer\": \"no\", \"reasoning\": \"The Earth orbits the Sun, not the other way around.\"\x7d").data⟩]

/-- Model of `SimpleRagClient._build_messages` (lines 69–77). -/
def buildMessages (system_instruction user_prompt : List Char) (no_think : Bool)
    (few_shots : Option (List Msg)) : List Msg :=
  let up := if no_think then user_prompt ++ "/no_think".data else user_prompt
  ⟨"system", system_instruction⟩ :: (few_shots.getD [] ++ [⟨"user", up⟩])

/-- Model of `FactOnlyClient.call_llm` (lines 129–185), with `translator = None`
(translation disabled; the translation cache itself is modelled separately
by `translate_cached`).  Returns the pair `(user_prompt, parsed)` on
success, and on terminal failure returns `None` and appends one
`(fact, "Unable to parse JSON")` entry to the failure log (lines 178–182).
The caller receives the parsed value re-serialized with `json.dumps`;
since `json.loads(json.dumps(x)) == x`, the round trip is elided and the
`JVal` itself is handed over. -/
def call_llm_fact (chat : Nat → List Msg → Except Unit (List Char))
    (loads : List Char → Option JVal) (allow_idk use_few_shots : Bool)
    (max_attempts : Nat) (fact : List Char) (no_think : Bool) :
    Option (List Char × JVal) × List (List Char × String) :=
  let system_msg := sysPromptFact allow_idk
  let user_prompt := userPromptFact allow_idk fact
  let few := if use_few_shots then some (fewShotsFact allow_idk) else none
  let messages := buildMessages system_msg user_prompt no_think few
  match (SimpleRagClient_call chat loads none max_attempts messages).toResp with
  | none => (none, [(fact, "Unable to parse JSON")])
  | some j => (some (user_prompt, j), [])

/-! ## The checkpointed orchestrator (`src/evaluate.py` `main`, lines 108–177) -/
/-- Python exceptions that the modelled code can raise. -/
inductive PyErr
  | attributeError (name : String)
  | valueError (msg : String)
  | keyError (key : String)
  | typeError (msg : String)
  | assertionError (msg : String)
  deriving DecidableEq

/-- A value inside the dict stored at line 169 of `src/evaluate.py`. -/
inductive StoreVal
  | vs (s : String)
  | vj (j : JVal)
  | vc (c : Option ℚ)

/-- A checkpoint value: the explicit `None` failure sentinel written at
line 146, or the dict literal written at line 169. -/
inductive CkptVal
  | sentinel
  | dict (kvs : List (String × StoreVal))

/-- The key list of a stored checkpoint value (`None` has no keys). -/
def ckptKeys : CkptVal → Option (List String)
  | .sentinel => none
  | .dict kvs => some (kvs.map Prod.fst)

/-- One line of the output log (lines 172–176); `output` is the raw
`resp_str` value, kept as its parsed form. -/
structure OutEntry where
  prompt : List Char
  prediction : String
  reasoning : JVal
  output : JVal

/-- The orchestrator's mutable state: the in-memory checkpoint dict
`predictions` and the append-only output log. -/
structure OrchState where
  ckpt : List (String × CkptVal)
  outputs : List OutEntry

/-- What `fut.result()` yields for one item: either the exception raised
inside `llm_worker` (re-raised by `result()`), or the pair
`(prompt, resp)` with `resp = None` on client failure. -/
abbrev WorkerRes := Except PyErr (Option (List Char × JVal))

/-- The body of the result loop for one completed future
(lines 143–176).  `cov` abstracts the keyword-coverage block
(lines 156–168), which calls the external spaCy lemmatizer; `coverage` is
`None` when the record has no keywords.  A response without the string key
`'answer'` raises `KeyError`; a non-string `answer` raises
`AttributeError` at `.lower()`; a non-dict response raises `TypeError` at
the subscript — none of these are caught anywhere in `main`. -/
def processOne (cov : String → JVal → Option ℚ) (st : OrchState) (qid : String)
    (res : Option (List Char × JVal)) : Except PyErr OrchState :=
  match res with
  | none => .ok { st with ckpt := dictSet st.ckpt qid .sentinel }
  | some (prompt, j) =>
    match j with
    | .obj kvs =>
      match dictGet kvs "answer" with
      | none => .error (.keyError "answer")
      | some v =>
        match v with
        | .str a =>
          let answer := pyLowerS a
          let reasoning := (dictGet kvs "reasoning").getD (.str "")
          let coverage := cov qid j
          .ok { ckpt := dictSet st.ckpt qid
                  (.dict [("answer", .vs answer), ("reasoning", .vj reasoning),
                          ("coverage", .vc coverage)]),
                outputs := st.outputs ++ [⟨prompt, answer, reasoning, j⟩] }
        | _ => .error (.attributeError "lower")
    | .str _ => .error (.typeError "string indices must be integers")
    | .arr _ => .error (.typeError "list indices must be integers or slices, not str")
    | _ => .error (.typeError "object is not subscriptable")

/-- The `as_completed` result loop (lines 142–176), consuming the worker
results in completion order.  `fut.result()` re-raises a worker exception
and nothing in the loop catches it (or the `KeyError`/`TypeError`/
`AttributeError` of `processOne`), so the first error aborts the loop;
the state already written (each item's completion immediately rewrites the
checkpoint file, lines 147–148 and 170–171) is kept. -/
def processBatch (cov : String → JVal → Option ℚ) :
    OrchState → List (String × WorkerRes) → OrchState × Option PyErr
  | st, [] => (st, none)
  | st, (qid, res) :: rest =>
    match res with
    | .error e => (st, some e)
    | .ok payload =>
      match processOne cov st qid payload with
      | .error e => (st, some e)
      | .ok st' => processBatch cov st' rest

/-- End-to-end processing of a single fact-only item: the worker's
`call_llm` followed by the result-loop body for that item.  Returns the
new orchestrator state, the error (if any) escaping the result loop, and
the failure-log entries appended by the client. -/
def runItemFact (chat : Nat → List Msg → Except Unit (List Char))
    (loads : List Char → Option JVal) (allow_idk use_few_shots : Bool)
    (max_attempts : Nat) (cov : String → JVal → Option ℚ)
    (qid : String) (fact : List Char) (st : OrchState) :
    OrchState × Option PyErr × List (List Char × String) :=
  let step := call_llm_fact chat loads allow_idk use_few_shots max_attempts fact false
  match processOne cov st qid step.1 with
  | .ok st' => (st', none, step.2)
  | .error e => (st, some e, step.2)

/-- Line 110 of `src/evaluate.py`:
`remaining = [qid for qid in queries if qid not in predictions]`. -/
def remainingWork (queries : List String) (predictions : List (String × CkptVal)) : List String :=
  queries.filter (fun qid => !dictHasKey predictions qid)

/-- The ids for which the run invokes the model endpoint: line 141 submits
exactly one `llm_worker` future per id of `remaining`, and every client /
endpoint invocation of the run happens inside those workers. -/
def invokedIds (queries : List String) (predictions : List (String × CkptVal)) : List String :=
  remainingWork queries predictions

/-! ## The translation cache (`SimpleRagClient._translate_cached`, lines 32–60) -/
/-- Masking of the literal JSON key names before translation (lines 39–49),
in dict insertion order. -/
def maskText (t : List Char) : List Char :=
  let t1 := replaceAll ("\x27answer\x27").data ("__ans__").data t
  let t2 := replaceAll ("\"answer\"").data ("__ans__").data t1
  let t3 := replaceAll ("\x27reasoning\x27").data ("__rsp__").data t2
  replaceAll ("\"reasoning\"").data ("__rsp__").data t3

/-- Unmasking after translation (lines 55–56): the same mapping applied
mask-to-raw, again in insertion order, so both masks become the
single-quoted originals. -/
def unmaskText (t : List Char) : List Char :=
  let t1 := replaceAll ("__ans__").data ("\x27answer\x27").data t
  let t2 := replaceAll ("__ans__").data ("\"answer\"").data t1
  let t3 := replaceAll ("__rsp__").data ("\x27reasoning\x27").data t2
  replaceAll ("__rsp__").data ("\"reasoning\"").data t3

/-- Model of `_translate_cached`: returns the translation result, the new cache and
the number of translator invocations made by this call.  With no
translator the text passes through uncached; a cache hit returns the
stored value; otherwise the masked text is sent to the translator and the
result (or, if the translator raises, the original text) is stored under
the exact input string. -/
def translate_cached (svc : Option (List Char → Except Unit (List Char)))
    (cache : List (List Char × List Char)) (text : List Char) :
    List Char × List (List Char × List Char) × Nat :=
  match svc with
  | none => (text, cache, 0)
  | some f =>
    match dictGet cache text with
    | some t => (t, cache, 0)
    | none =>
      match f (maskText text) with
      | .error _ => (text, dictSet cache text text, 1)
      | .ok tm => (unmaskText tm, dictSet cache text (unmaskText tm), 1)

/-! ## The fragment retriever (`src/retrieval.py`) -/
/-- The attribute state of a `RelevantRetriever` object.  `__init__`
(lines 21–26) assigns exactly `device`, `model`, `tokenizer`, `maxlen`,
`batch_size` and `pooling`; reading any other attribute raises
`AttributeError`.  In particular `splitter` is never assigned, and
`get_embeddings` reads `max_len` (line 49) while `__init__` sets
`maxlen`.  The external `model`/`tokenizer` handles are omitted. -/
structure RelevantRetriever where
  device : Option String
  maxlen : Option Nat
  batch_size : Option Nat
  pooling : Option String
  splitter : Option String
  max_len : Option Nat

/-- Model of `RelevantRetriever.__init__` (lines 10–26): the two asserts, then the
attribute assignments (`pooling` is stored lowercased). -/
def relevantRetriever_init (model_name : String) (maxlen batch_size : Nat)
    (pooling splitter : String) (device : String) : Except PyErr RelevantRetriever :=
  let _ := model_name
  if pooling = "mean" ∨ pooling = "cls" then
    if splitter = "sentence" ∨ splitter = "paragraph" then
      .ok { device := some device, maxlen := some maxlen, batch_size := some batch_size,
            pooling := some (pyLowerS pooling), splitter := none, max_len := none }
    else .error (.assertionError "")
  else .error (.assertionError "pooling must be either mean or cls")

/-- Model of `RelevantRetriever.split` (lines 40–43): reads `self.splitter`, which
`__init__` never assigned, so every call raises `AttributeError`; had it
been assigned, the called helpers `_split_sentences` /
`_split_paragraphs` do not exist either (the class defines
`split_sentence` and `split_abstract`). -/
def RelevantRetriever.split (r : RelevantRetriever) (text : String) : Except PyErr (List String) :=
  let _ := text
  match r.splitter with
  | none => .error (.attributeError "splitter")
  | some sp =>
    if sp = "sentence" then .error (.attributeError "_split_sentences")
    else .error (.attributeError "_split_paragraphs")

/-- Model of `RelevantRetriever.get_embeddings` (lines 45–65) control flow: the batch
loop reads `self.batch_size` (assigned) and then calls the tokenizer with
`max_length=self.max_len` (line 49) — an attribute that was never
assigned — before ever reaching the pooling dispatch.  An empty input
list skips the loop and fails at `np.vstack([])`. -/
def RelevantRetriever.get_embeddings (r : RelevantRetriever) (texts : List String) :
    Except PyErr (List (List ℚ)) :=
  match r.batch_size with
  | none => .error (.attributeError "batch_size")
  | some bs =>
    if bs = 0 then .error (.valueError "range() arg 3 must not be zero")
    else if texts.isEmpty then .error (.valueError "need at least one array to concatenate")
    else
      match r.max_len with
      | none => .error (.attributeError "max_len")
      | some _ =>
        match r.pooling with
        | none => .error (.attributeError "pooling")
        | some p =>
          if p = "average" then .error (.attributeError "_average_pool")
          else if p = "cls" then .error (.attributeError "_cls_pool")
          else .error (.valueError ("Unknown pooling method: " ++ p))

/-- The pooling dispatch of lines 55–60 in isolation: which pooling routine
would be selected for a given `self.pooling` value.  Only `'average'` and
`'cls'` are recognised — not the `'mean'` accepted by the constructor's
assert. -/
def pooling_dispatch (p : String) : Except PyErr String :=
  if p = "average" then .ok "_average_pool"
  else if p = "cls" then .ok "_cls_pool"
  else .error (.valueError ("Unknown pooling method: " ++ p))

/-- The tie-aware ranking order underlying `sims.argsort()`: ascending by
similarity, and ascending by index among equal similarities.  NumPy's
`argsort` (default kind) uses insertion sort for the array sizes arising
here, which is stable, so the stable ascending sort is its model. -/
def rankRel (sims : List ℚ) (i j : Nat) : Prop :=
  sims.getD i 0 < sims.getD j 0 ∨ (sims.getD i 0 = sims.getD j 0 ∧ i ≤ j)

instance (sims : List ℚ) : DecidableRel (rankRel sims) := fun i j => by
  unfold rankRel
  infer_instance

instance (sims : List ℚ) : IsTotal Nat (rankRel sims) where
  total := by
    intro i j
    rcases lt_trichotomy (sims.getD i 0) (sims.getD j 0) with h | h | h
    · exact Or.inl (Or.inl h)
    · rcases Nat.le_total i j with hij | hij
      · exact Or.inl (Or.inr ⟨h, hij⟩)
      · exact Or.inr (Or.inr ⟨h.symm, hij⟩)
    · exact Or.inr (Or.inl h)

instance (sims : List ℚ) : IsTrans Nat (rankRel sims) where
  trans := by
    intro i j k hij hjk
    rcases hij with h1 | ⟨h1, h1n⟩
    · rcases hjk with h2 | ⟨h2, _⟩
      · exact Or.inl (h1.trans h2)
      · exact Or.inl (h2 ▸ h1)
    · rcases hjk with h2 | ⟨h2, h2n⟩
      · exact Or.inl (h1 ▸ h2)
      · exact Or.inr ⟨h1.trans h2, h1n.trans h2n⟩

/-- Model of `sims.argsort()`: the indices `0 .. len-1` sorted ascending (stably) by
similarity. -/
def argsortAsc (sims : List ℚ) : List Nat :=
  List.insertionSort (rankRel sims) (List.range sims.length)

/-- Line 76 of `src/retrieval.py`: `sims.argsort()[::-1][:top_k]`. -/
def rankTopK (sims : List ℚ) (k : Nat) : List Nat :=
  ((argsortAsc sims).reverse).take k

/-- Model of `RelevantRetriever.retrieve` (lines 67–78) over the strict attribute
model; `cosSim` abstracts `sklearn.cosine_similarity` (real-valued, an
external collaborator).  The embedding steps always raise (see
`get_embeddings`), so the ranking tail is unreachable here; it is stated
faithfully nonetheless. -/
def RelevantRetriever.retrieve (r : RelevantRetriever) (cosSim : List ℚ → List ℚ → ℚ)
    (fact article_text : String) (top_k : Nat) : Except PyErr (List String) := do
  let fragments ← r.split article_text
  if fragments.isEmpty then
    return []
  let query_emb ← r.get_embeddings [fact]
  let frag_embs ← r.get_embeddings fragments
  let sims := frag_embs.map (cosSim (query_emb.headD []))
  return (rankTopK sims top_k).map (fun i => fragments.getD i "")

/-- The data flow of `retrieve` (lines 67–78) with the broken upstream
methods abstracted: `splitF` stands for the intended `split` and `simFn`
for the composite `cosine_similarity(get_embeddings([fact]),
get_embeddings(fragments))[0]` similarity of one fragment to the fact.
This isolates the ranking behaviour of lines 75–78. -/
def retrieveModel (splitF : String → List String) (simFn : String → String → ℚ)
    (fact article_text : String) (top_k : Nat) : List String :=
  let fragments := splitF article_text
  if fragments.isEmpty then []
  else (rankTopK (fragments.map (simFn fact)) top_k).map (fun i => fragments.getD i "")

/-- The fact-only user template up to its placeholder. -/
def preFactU : List Char := ("Is the following statement factually correct: \"").data

/-- The fact-only user template after its placeholder. -/
def postFactU : List Char := ("\"?").data

/-- The linked user template up to its first placeholder. -/
def preLinkedU : List Char :=
  ("Is the following statement factually correct based on your knowledge and the abstracts below?\n\nFACT:\n\"").data

/-- The linked user template between its two placeholders. -/
def midLinkedU : List Char := ("\"\n\nABSTRACTS:\n\n").data

/-- The relevant user template up to its first placeholder. -/
def preRelevantU : List Char :=
  ("Is the following statement factually correct based on your knowledge and the abstracts below?\n\nFACT:\n\"").data

/-- The relevant user template between its two placeholders. -/
def midRelevantU : List Char := ("\"\n\nRELEVANT ABSTRACTS:\n\n").data

/-- The shape of every value the result loop stores in the checkpoint: the
`None` sentinel, or the three-key dict of line 169 with the lowercased
answer string. -/
def storedShape (v : CkptVal) : Prop :=
  v = .sentinel
  ∨ ∃ a r c, v = .dict [("answer", .vs (pyLowerS a)), ("reasoning", .vj r), ("coverage", .vc c)]

/-- A worker outcome the result loop can digest without raising: no
exception escaped the worker, and the payload is either the client's
`None` or a response object carrying a string `'answer'`. -/
def okShaped (x : String × WorkerRes) : Prop :=
  ∃ pl, x.2 = .ok pl
    ∧ (pl = none
        ∨ ∃ p kvs a, pl = some (p, JVal.obj kvs) ∧ dictGet kvs "answer" = some (JVal.str a))

theorem dictGet_dictSet_self {κ α : Type} [DecidableEq κ]
    (d : List (κ × α)) (q : κ) (v : α) : dictGet (dictSet d q v) q = some v := by
  induction d with
  | nil => simp [dictSet, dictGet]
  | cons p rest ih =>
    obtain ⟨k, w⟩ := p
    by_cases h : k = q
    · simp [dictSet, dictGet, h]
    · simp [dictSet, dictGet, h, ih]

theorem dictGet_dictSet_ne {κ α : Type} [DecidableEq κ]
    (d : List (κ × α)) (q q' : κ) (v : α) (h : q ≠ q') :
    dictGet (dictSet d q v) q' = dictGet d q' := by
  induction d with
  | nil => simp [dictSet, dictGet, h]
  | cons p rest ih =>
    obtain ⟨k, w⟩ := p
    by_cases hk : k = q
    · subst hk
      simp [dictSet, dictGet, h]
    · simp [dictSet, dictGet, hk, ih]

theorem dictHasKey_dictSet_self {κ α : Type} [DecidableEq κ]
    (d : List (κ × α)) (q : κ) (v : α) : dictHasKey (dictSet d q v) q = true := by
  simp [dictHasKey, dictGet_dictSet_self]

theorem dictHasKey_dictSet_mono {κ α : Type} [DecidableEq κ]
    (d : List (κ × α)) (q q' : κ) (v : α) (h : dictHasKey d q' = true) :
    dictHasKey (dictSet d q v) q' = true := by
  by_cases hq : q = q'
  · subst hq
    exact dictHasKey_dictSet_self d q v
  · simpa [dictHasKey, dictGet_dictSet_ne d q q' v hq] using h

example : pyStrip " ab ".data = "ab".data := by decide

example : containsSub "idk".data "say idk now".data = true := by decide

example : containsSub "idk".data "nothing".data = false := by decide

example : replaceAll "ab".data "X".data "zababz".data = "zXXz".data := by decide

example : formatL "a\x7b\x7db".data ["YY".data] = "aYYb".data := by decide

example : pyLowerS "MayBe" = "maybe" := by rfl

/-- The reversed-accumulator in `fencedScan` keeps the scan structural; sanity
checks that the model matches the regex on representative inputs. -/
example : extractJson "pre \x7b\"a\": \"b\"\x7d post".data = "\x7b\"a\": \"b\"\x7d".data := by decide

example : extractJson "```json \x7b\"a\": \"b\"\x7d ```".data = "\x7b\"a\": \"b\"\x7d".data := by decide

example : extractJson "not json".data = "not json".data := by decide

example : miniJson "\x7b\"answer\": \"yes\"\x7d".data = some (.obj [("answer", .str "yes")]) := rfl

example : miniJson "\x7b\"answer\": \"yes\", \"reasoning\": \"ok\"\x7d".data
    = some (.obj [("answer", .str "yes"), ("reasoning", .str "ok")]) := rfl

example : miniJson "not json".data = none := rfl

example : miniJson "".data = none := rfl

example : containsSub "idk".data (sysPromptFact true) = true := by decide

example : containsSub "idk".data (sysPromptFact false) = false := by decide

/-! ## Substring lemmas: occurrences cannot cross a boundary character that
is absent from the pattern. -/
theorem isPrefixL_refl (xs : List Char) : isPrefixL xs xs = true := by
  induction xs with
  | nil => rfl
  | cons c rest ih => simp [isPrefixL, ih]

theorem isPrefixL_contains (pat xs : List Char) (h : isPrefixL pat xs = true) :
    containsSub pat xs = true := by
  cases xs with
  | nil =>
    cases pat with
    | nil => rfl
    | cons c r => simp [isPrefixL] at h
  | cons x rest => simp [containsSub, h]

theorem containsSub_tail (pat : List Char) (c : Char) (t : List Char)
    (h : containsSub pat (c :: t) = false) : containsSub pat t = false := by
  simp only [containsSub, Bool.or_eq_false_iff] at h
  exact h.2

theorem isPrefixL_append_cases (pat u v : List Char) (h : isPrefixL pat (u ++ v) = true) :
    isPrefixL pat u = true ∨ ∃ r, pat = u ++ r ∧ isPrefixL r v = true := by
  induction u generalizing pat with
  | nil => exact Or.inr ⟨pat, rfl, h⟩
  | cons c u' ih =>
    cases pat with
    | nil => exact Or.inl rfl
    | cons y p' =>
      simp only [List.cons_append, isPrefixL, Bool.and_eq_true, decide_eq_true_eq] at h
      rcases ih p' h.2 with h1 | ⟨r, hr, hrv⟩
      · exact Or.inl (by simp [isPrefixL, h.1, h1])
      · exact Or.inr ⟨r, by simp [h.1, hr], hrv⟩

theorem getLast?_some_mem (xs : List Char) (ch : Char) (h : xs.getLast? = some ch) :
    ch ∈ xs := by
  induction xs with
  | nil => simp at h
  | cons c rest ih =>
    cases rest with
    | nil =>
      simp only [List.getLast?_singleton, Option.some.injEq] at h
      simp [h]
    | cons d rest' =>
      rw [List.getLast?_cons_cons] at h
      exact List.mem_cons_of_mem c (ih h)

theorem contains_append_right_head (pat a b : List Char) (ch : Char)
    (ha : containsSub pat a = false) (hb : containsSub pat b = false)
    (hh : b.head? = some ch) (hch : ch ∉ pat) :
    containsSub pat (a ++ b) = false := by
  induction a with
  | nil => simpa using hb
  | cons c a' ih =>
    have ha' : containsSub pat a' = false := containsSub_tail pat c a' ha
    have htail : containsSub pat (a' ++ b) = false := ih ha'
    by_contra hcontra
    rw [Bool.not_eq_false] at hcontra
    simp only [List.cons_append, containsSub, List.append_eq, Bool.or_eq_true] at hcontra
    rcases hcontra with hpre | htl
    · rcases isPrefixL_append_cases pat (c :: a') b hpre with h1 | ⟨r, hr, hrv⟩
      · have := isPrefixL_contains pat (c :: a') h1
        rw [ha] at this
        exact Bool.false_ne_true this
      · cases r with
        | nil =>
          have : isPrefixL pat (c :: a') = true := by
            rw [hr, List.append_nil]
            exact isPrefixL_refl (c :: a')
          have := isPrefixL_contains pat (c :: a') this
          rw [ha] at this
          exact Bool.false_ne_true this
        | cons y r' =>
          cases b with
          | nil => simp [isPrefixL] at hrv
          | cons b0 bs =>
            simp only [isPrefixL, Bool.and_eq_true, decide_eq_true_eq] at hrv
            simp only [List.head?_cons, Option.some.injEq] at hh
            have hy : y = ch := by rw [hrv.1, hh]
            refine hch (hy ▸ ?_)
            rw [hr]
            exact List.mem_append_right _ (List.mem_cons_self y r')
    · exact Bool.false_ne_true (htail.symm.trans htl)

theorem contains_append_left_last (pat a b : List Char) (ch : Char)
    (ha : containsSub pat a = false) (hb : containsSub pat b = false)
    (hl : a.getLast? = some ch) (hch : ch ∉ pat) :
    containsSub pat (a ++ b) = false := by
  induction a with
  | nil => simp at hl
  | cons c a' ih =>
    by_contra hcontra
    rw [Bool.not_eq_false] at hcontra
    simp only [List.cons_append, containsSub, List.append_eq, Bool.or_eq_true] at hcontra
    have ha' : containsSub pat a' = false := containsSub_tail pat c a' ha
    rcases hcontra with hpre | htl
    · rcases isPrefixL_append_cases pat (c :: a') b hpre with h1 | ⟨r, hr, _⟩
      · have := isPrefixL_contains pat (c :: a') h1
        rw [ha] at this
        exact Bool.false_ne_true this
      · have hmem : ch ∈ (c :: a') := getLast?_some_mem (c :: a') ch hl
        exact hch (by rw [hr]; exact List.mem_append_left r hmem)
    · cases a' with
      | nil => exact Bool.false_ne_true (hb.symm.trans htl)
      | cons d a'' =>
        rw [List.getLast?_cons_cons] at hl
        exact Bool.false_ne_true ((ih ha' hl).symm.trans htl)

/-- Splicing through `formatL`: a placeholder-free template prefix whose last
character is not an opening brace passes through `str.format` unchanged. -/
theorem formatL_append (a b : List Char) (args : List (List Char)) (ch : Char)
    (ha : containsSub [lbrace, rbrace] a = false)
    (hl : a.getLast? = some ch) (hch : ch ≠ lbrace) :
    formatL (a ++ b) args = a ++ formatL b args := by
  induction a generalizing args with
  | nil => simp at hl
  | cons c a' ih =>
    cases a' with
    | nil =>
      have hc : c = ch := by
        simp only [List.getLast?_singleton, Option.some.injEq] at hl
        exact hl
      cases b with
      | nil => simp [formatL]
      | cons d bs =>
        have hcond : ¬(c = lbrace ∧ d = rbrace) := by
          intro hcd
          exact hch (hc ▸ hcd.1)
        simp only [List.cons_append, List.nil_append, formatL, if_neg hcond]
    | cons d a'' =>
      have hpre : isPrefixL [lbrace, rbrace] (c :: d :: a'') = false := by
        by_contra hcontra
        rw [Bool.not_eq_false] at hcontra
        have := isPrefixL_contains _ _ hcontra
        rw [ha] at this
        exact Bool.false_ne_true this
      have hcond : ¬(c = lbrace ∧ d = rbrace) := by
        intro hcd
        simp [isPrefixL, hcd.1, hcd.2] at hpre
      have ha' : containsSub [lbrace, rbrace] (d :: a'') = false :=
        containsSub_tail _ c _ ha
      rw [List.getLast?_cons_cons] at hl
      have hstep := ih args ha' hl
      simp only [List.cons_append, formatL, if_neg hcond]
      show c :: formatL ((d :: a'') ++ b) args = c :: ((d :: a'') ++ formatL b args)
      rw [hstep]

/-- The joined string `"sep".join(parts)` contains no occurrence of `pat` when neither the
separator nor any part does and the separator's first and last characters
are not in `pat`. -/
theorem joinSep_contains_false (pat sep : List Char) (hpat : pat ≠ [])
    (hsep : containsSub pat sep = false)
    (chh chl : Char)
    (hh : sep.head? = some chh) (hh2 : chh ∉ pat)
    (hl : sep.getLast? = some chl) (hl2 : chl ∉ pat)
    (parts : List (List Char)) (hparts : ∀ p ∈ parts, containsSub pat p = false) :
    containsSub pat (joinSep sep parts) = false := by
  induction parts with
  | nil =>
    cases pat with
    | nil => exact absurd rfl hpat
    | cons p ps => rfl
  | cons c rest ih =>
    cases rest with
    | nil => exact hparts c (List.mem_singleton.mpr rfl)
    | cons c2 rest' =>
      have hjoin : containsSub pat (joinSep sep (c2 :: rest')) = false :=
        ih (fun p hp => hparts p (List.mem_cons_of_mem c hp))
      have hinner : containsSub pat (sep ++ joinSep sep (c2 :: rest')) = false :=
        contains_append_left_last pat sep _ chl hsep hjoin hl hl2
      have hheadInner : (sep ++ joinSep sep (c2 :: rest')).head? = some chh := by
        cases sep with
        | nil => simp at hh
        | cons s0 st => simpa using hh
      have hc : containsSub pat c = false := hparts c (List.mem_cons_self c _)
      show containsSub pat (c ++ sep ++ joinSep sep (c2 :: rest')) = false
      rw [List.append_assoc]
      exact contains_append_right_head pat c _ chh hc hinner hheadInner hh2

/-! ## Claim theorems -/
/-- C1: At-most-once processing.  The remaining work list computed at line
110 of `src/evaluate.py` is exactly the work-list ids that are not keys of
the loaded checkpoint — key presence alone decides, whatever the stored
value (success record or `None` sentinel) — and the run submits workers
(hence invokes the model endpoint) exactly for those ids, so no
checkpointed id is ever re-sent to the model. -/
theorem C1_at_most_once (queries : List String) (predictions : List (String × CkptVal))
    (qid : String) :
    (qid ∈ remainingWork queries predictions
      ↔ qid ∈ queries ∧ dictHasKey predictions qid = false)
    ∧ (dictHasKey predictions qid = true → qid ∉ invokedIds queries predictions) := by
  constructor
  · simp [remainingWork, List.mem_filter]
  · intro h hmem
    rw [invokedIds, remainingWork, List.mem_filter] at hmem
    simp [h] at hmem

/-- Witness for C1 at a concrete checkpoint holding a `None` sentinel. -/
theorem C1_at_most_once_witness :
    dictHasKey [("a", CkptVal.sentinel)] "a" = true
    ∧ "a" ∉ invokedIds ["a", "b"] [("a", CkptVal.sentinel)] :=
  ⟨by decide, (C1_at_most_once ["a", "b"] [("a", CkptVal.sentinel)] "a").2 (by decide)⟩

/-- C10: Translation cache permanence.  On a cache miss the call invokes the
translator exactly once, stores exactly one entry under the exact input
string — the unmasked translation on success, the original text on a
translator exception — and any later call with the same string returns
the cached value with zero further translator invocations (in particular
a failed translation is never retried). -/
theorem C10_translation_cache (f : List Char → Except Unit (List Char))
    (cache : List (List Char × List Char)) (text : List Char)
    (h : dictGet cache text = none) :
    (translate_cached (some f) cache text).2.2 = 1
    ∧ (translate_cached (some f) cache text).2.1
        = dictSet cache text (translate_cached (some f) cache text).1
    ∧ (translate_cached (some f) cache text).1
        = (match f (maskText text) with | .ok tm => unmaskText tm | .error _ => text)
    ∧ translate_cached (some f) (translate_cached (some f) cache text).2.1 text
        = ((translate_cached (some f) cache text).1,
           (translate_cached (some f) cache text).2.1, 0) := by
  rcases hf : f (maskText text) with e | tm
  · simp [translate_cached, h, hf, dictGet_dictSet_self]
  · simp [translate_cached, h, hf, dictGet_dictSet_self]

/-- Witness for C10 with a translator that always raises: the original text
is cached and the failure is not retried. -/
theorem C10_translation_cache_witness :
    dictGet ([] : List (List Char × List Char)) "t".data = none
    ∧ (translate_cached (some (fun _ => .error ())) [] "t".data).2.2 = 1 :=
  ⟨rfl, (C10_translation_cache (fun _ => .error ()) [] "t".data rfl).1⟩

/-- C6: the claim says `retrieve` returns an empty sequence on an empty
document; in fact every call of `retrieve` raises `AttributeError`
before the empty-fragments check can run, because `split` reads
`self.splitter`, which `__init__` never assigns (and the helpers it would
then call, `_split_sentences` / `_split_paragraphs`, do not exist —
the class defines `split_sentence` / `split_abstract`). -/
theorem C6_empty_document_raises :
    (relevantRetriever_init "m" 512 8 "cls" "sentence" "cpu").map
        (fun r => r.retrieve (fun _ _ => 0) "query" "" 5)
      = .ok (.error (.attributeError "splitter")) := rfl

/-- C7: the constructor's assert accepts `pooling='mean'` (its message even
says "pooling must be either mean or cls"), but `get_embeddings` then
raises on every nonempty batch: first `AttributeError` on `self.max_len`
(assigned as `maxlen`), and its pooling dispatch recognises only
`'average'` and `'cls'`, so `'mean'` would raise
`ValueError: Unknown pooling method: mean` regardless. -/
theorem C7_mean_pooling_raises :
    relevantRetriever_init "m" 512 8 "mean" "sentence" "cpu"
      = .ok { device := some "cpu", maxlen := some 512, batch_size := some 8,
              pooling := some "mean", splitter := none, max_len := none }
    ∧ (relevantRetriever_init "m" 512 8 "mean" "sentence" "cpu").map
        (fun r => r.get_embeddings ["some text"])
      = .ok (.error (.attributeError "max_len"))
    ∧ pooling_dispatch "mean" = .error (.valueError "Unknown pooling method: mean") :=
  ⟨rfl, rfl, rfl⟩

/-- The output of `rankTopK` is pairwise ordered by descending similarity
with ties in descending index order: `argsort` is ascending and stable,
and line 76 reverses it. -/
theorem rankTopK_pairwise (sims : List ℚ) (k : Nat) :
    (rankTopK sims k).Pairwise (fun i j => rankRel sims j i) := by
  have h1 : (argsortAsc sims).Sorted (rankRel sims) :=
    List.sorted_insertionSort (rankRel sims) (List.range sims.length)
  have h2 : ((argsortAsc sims).reverse).Pairwise (fun i j => rankRel sims j i) :=
    List.pairwise_reverse.mpr h1
  exact List.Pairwise.sublist (List.take_sublist k _) h2

/-- C5 (amended): for every query, document and `top_k`, `retrieve` (its
ranking core, lines 67–78, with the broken upstream `split` /
`get_embeddings` abstracted — see C6/C7) returns the fragment texts in
descending-similarity order, but equal-similarity ties are returned in
*reverse* document order: `argsort` sorts ascending (stably), and the
`[::-1]` reversal of line 76 therefore puts the later fragment first.
`rankRel sims j i` unfolds to `sims[j] < sims[i] ∨ (sims[j] = sims[i] ∧
j ≤ i)`. -/
theorem C5_ranking_order (splitF : String → List String) (simFn : String → String → ℚ)
    (fact article_text : String) (k : Nat) :
    retrieveModel splitF simFn fact article_text k
      = (if (splitF article_text).isEmpty then []
         else (rankTopK ((splitF article_text).map (simFn fact)) k).map
                (fun i => (splitF article_text).getD i ""))
    ∧ (rankTopK ((splitF article_text).map (simFn fact)) k).Pairwise
        (fun i j => rankRel ((splitF article_text).map (simFn fact)) j i) :=
  ⟨rfl, rankTopK_pairwise ((splitF article_text).map (simFn fact)) k⟩

/-- C5 counterexample: two fragments with equal similarity come back in
reverse document order — `["B", "A"]`, not the `["A", "B"]` the claim's
earlier-first tie-break demands. -/
theorem C5_tie_break_cex :
    retrieveModel (fun _ => ["A", "B"]) (fun _ _ => (1 : ℚ)) "q" "d" 2 = ["B", "A"]
    ∧ retrieveModel (fun _ => ["A", "B"]) (fun _ _ => (1 : ℚ)) "q" "d" 2 ≠ ["A", "B"] := by
  constructor
  · rfl
  · intro h
    simp only [retrieveModel, rankTopK, argsortAsc] at h
    exact absurd h (by decide)

/-- Unfolding lemma: `formatL` consumes a placeholder at the head of the template. -/
theorem formatL_cons_hole (rest : List Char) (a : List Char) (as : List (List Char)) :
    formatL (lbrace :: rbrace :: rest) (a :: as) = a ++ formatL rest as := by
  simp [formatL]

/-- The fact-only user prompt is the template with the fact spliced between
the quote-delimited parts. -/
theorem userPromptFact_eq (fact : List Char) :
    userPromptFact false fact = preFactU ++ (fact ++ postFactU) := by
  have h1 : userTemplateFact false = preFactU ++ (lbrace :: rbrace :: postFactU) := by decide
  have h2 : formatL postFactU ([] : List (List Char)) = postFactU := by decide
  rw [userPromptFact, h1,
      formatL_append preFactU _ [fact] '\"' (by decide) (by decide) (by decide),
      formatL_cons_hole, h2]

/-- The linked user prompt as a four-part splice. -/
theorem userPromptLinked_eq (fact : List Char) (contexts : List (List Char)) :
    userPromptLinked false fact contexts
      = preLinkedU ++ (fact ++ (midLinkedU ++ joinSep "\n\n".data contexts)) := by
  have h1 : userTemplateLinked false
      = preLinkedU ++ (lbrace :: rbrace :: (midLinkedU ++ [lbrace, rbrace])) := by decide
  rw [userPromptLinked, h1,
      formatL_append preLinkedU _ [fact, joinSep "\n\n".data contexts] '\"'
        (by decide) (by decide) (by decide),
      formatL_cons_hole,
      formatL_append midLinkedU [lbrace, rbrace] [joinSep "\n\n".data contexts] '\n'
        (by decide) (by decide) (by decide),
      formatL_cons_hole]
  simp [formatL]

/-- The relevant user prompt as a four-part splice. -/
theorem userPromptRelevant_eq (fact : List Char) (contexts : List (List Char)) :
    userPromptRelevant false fact contexts
      = preRelevantU ++ (fact ++ (midRelevantU ++ joinSep "\n\n".data contexts)) := by
  have h1 : userTemplateRelevant false
      = preRelevantU ++ (lbrace :: rbrace :: (midRelevantU ++ [lbrace, rbrace])) := by decide
  rw [userPromptRelevant, h1,
      formatL_append preRelevantU _ [fact, joinSep "\n\n".data contexts] '\"'
        (by decide) (by decide) (by decide),
      formatL_cons_hole,
      formatL_append midRelevantU [lbrace, rbrace] [joinSep "\n\n".data contexts] '\n'
        (by decide) (by decide) (by decide),
      formatL_cons_hole]
  simp [formatL]

/-- Containment for a `pre ++ fact ++ mid ++ ctx` prompt whose boundary
characters (a double quote and a newline) do not occur in `"idk"`. -/
theorem contains_idk_assembled (pre mid fact J : List Char)
    (hpre : containsSub "idk".data pre = false)
    (hpreL : pre.getLast? = some '\"')
    (hmid : containsSub "idk".data mid = false)
    (hmidH : mid.head? = some '\"')
    (hmidL : mid.getLast? = some '\n')
    (hf : containsSub "idk".data fact = false)
    (hJ : containsSub "idk".data J = false) :
    containsSub "idk".data (pre ++ (fact ++ (mid ++ J))) = false := by
  have hMJ : containsSub "idk".data (mid ++ J) = false :=
    contains_append_left_last _ mid J '\n' hmid hJ hmidL (by decide)
  have hFMJ : containsSub "idk".data (fact ++ (mid ++ J)) = false := by
    refine contains_append_right_head _ fact _ '\"' hf hMJ ?_ (by decide)
    cases mid with
    | nil => simp at hmidH
    | cons m0 ms => simpa using hmidH
  exact contains_append_left_last _ pre _ '\"' hpre hFMJ hpreL (by decide)

/-- C8 counterexample: with `allow_idk=False` the fact text is spliced into
the user prompt verbatim, so a fact containing the substring `idk`
makes the built user prompt contain `idk`, contrary to the claim's
"for any fact". -/
theorem C8_idk_cex :
    containsSub "idk".data (userPromptFact false "idk".data) = true := by decide

/-- C8 (amended): with `allow_idk=False` and localization disabled, in all
three modes the built system instruction contains no occurrence of
`idk`, and the built user prompt contains none beyond what the caller's
own fact or context text contributes: for any fact and contexts that do
not contain `idk`, the user prompt contains no `idk` either. -/
theorem C8_idk_stripped (fact : List Char) (contexts : List (List Char))
    (hf : containsSub "idk".data fact = false)
    (hc : ∀ c ∈ contexts, containsSub "idk".data c = false) :
    containsSub "idk".data (sysPromptFact false) = false
    ∧ containsSub "idk".data (userPromptFact false fact) = false
    ∧ containsSub "idk".data (sysPromptLinked false) = false
    ∧ containsSub "idk".data (userPromptLinked false fact contexts) = false
    ∧ containsSub "idk".data (sysPromptRelevant false) = false
    ∧ containsSub "idk".data (userPromptRelevant false fact contexts) = false := by
  have hJ : containsSub "idk".data (joinSep "\n\n".data contexts) = false :=
    joinSep_contains_false "idk".data "\n\n".data (by decide) (by decide) '\n' '\n'
      (by decide) (by decide) (by decide) (by decide) contexts hc
  refine ⟨by decide, ?_, by decide, ?_, by decide, ?_⟩
  · rw [userPromptFact_eq]
    have hin : containsSub "idk".data (fact ++ postFactU) = false :=
      contains_append_right_head _ fact postFactU '\"' hf (by decide) rfl (by decide)
    exact contains_append_left_last _ preFactU _ '\"' (by decide) hin (by decide) (by decide)
  · rw [userPromptLinked_eq]
    exact contains_idk_assembled preLinkedU midLinkedU fact _ (by decide) (by decide)
      (by decide) rfl (by decide) hf hJ
  · rw [userPromptRelevant_eq]
    exact contains_idk_assembled preRelevantU midRelevantU fact _ (by decide) (by decide)
      (by decide) rfl (by decide) hf hJ

/-- Witness for C8 at a concrete idk-free fact with no contexts. -/
theorem C8_idk_stripped_witness :
    containsSub "idk".data "Paris is in France.".data = false
    ∧ containsSub "idk".data (userPromptFact false "Paris is in France.".data) = false :=
  ⟨by decide,
   (C8_idk_stripped "Paris is in France.".data [] (by decide)
      (by intro c hc; exact absurd hc (List.not_mem_nil c))).2.1⟩

/-- If every endpoint response is malformed — no JSON extractable by the
regex pipeline and none by the final bare parse — the retry loop consumes
all its rounds (one endpoint call each) and returns `failed`. -/
theorem callAux_malformed_aux (chat : Nat → List Msg → Except Unit (List Char))
    (loads : List Char → Option JVal)
    (hmal : ∀ round msgs, ∃ raw, chat round msgs = .ok raw
        ∧ loads (extractJson (pyStrip raw)) = none ∧ loads (pyStrip raw) = none) :
    ∀ r round n msgs lastRaw, loads lastRaw = none →
      callAux chat loads none r round n msgs lastRaw = .failed (n + r) := by
  intro r
  induction r with
  | zero =>
    intro round n msgs lastRaw hlast
    simp [callAux, hlast]
  | succ r' ih =>
    intro round n msgs lastRaw _
    obtain ⟨raw, hok, hext, hbare⟩ := hmal round msgs
    simp only [callAux, hok, hext]
    rw [ih (round + 1) (n + 1) _ (pyStrip raw) hbare]
    congr 1
    omega

theorem callAux_malformed (chat : Nat → List Msg → Except Unit (List Char))
    (loads : List Char → Option JVal)
    (hmal : ∀ round msgs, ∃ raw, chat round msgs = .ok raw
        ∧ loads (extractJson (pyStrip raw)) = none ∧ loads (pyStrip raw) = none) :
    ∀ r, 0 < r → ∀ round n msgs lastRaw,
      callAux chat loads none r round n msgs lastRaw = .failed (n + r) := by
  intro r hr round n msgs lastRaw
  obtain ⟨r', rfl⟩ : ∃ r', r = r' + 1 := ⟨r - 1, by omega⟩
  obtain ⟨raw, hok, hext, hbare⟩ := hmal round msgs
  simp only [callAux, hok, hext]
  rw [callAux_malformed_aux chat loads hmal r' (round + 1) (n + 1) _ (pyStrip raw) hbare]
  congr 1
  omega

/-- C2 (amended): for every fact whose model responses are malformed on all
`max_attempts` rounds, the client appends exactly one
`(fact, "Unable to parse JSON")` entry to the failure log and returns
`None` — and the orchestrator then *does* write a checkpoint entry for
that fact id, namely the `None` failure sentinel (line 146 of
`src/evaluate.py`), so the key is present and a future run will *not*
retry it (cf. C1). -/
theorem C2_exhaustion (chat : Nat → List Msg → Except Unit (List Char))
    (loads : List Char → Option JVal) (cov : String → JVal → Option ℚ)
    (allow_idk use_few_shots : Bool) (max_attempts : Nat) (hpos : 0 < max_attempts)
    (qid : String) (fact : List Char) (st : OrchState)
    (hmal : ∀ round msgs, ∃ raw, chat round msgs = .ok raw
        ∧ loads (extractJson (pyStrip raw)) = none ∧ loads (pyStrip raw) = none) :
    (runItemFact chat loads allow_idk use_few_shots max_attempts cov qid fact st).1
        = { st with ckpt := dictSet st.ckpt qid .sentinel }
    ∧ (runItemFact chat loads allow_idk use_few_shots max_attempts cov qid fact st).2.1 = none
    ∧ (runItemFact chat loads allow_idk use_few_shots max_attempts cov qid fact st).2.2
        = [(fact, "Unable to parse JSON")]
    ∧ dictHasKey
        (runItemFact chat loads allow_idk use_few_shots max_attempts cov qid fact st).1.ckpt
        qid = true := by
  have hcall : ∀ messages, SimpleRagClient_call chat loads none max_attempts messages
      = .failed max_attempts := by
    intro messages
    rw [SimpleRagClient_call, callAux_malformed chat loads hmal max_attempts hpos 1 0 messages [],
        Nat.zero_add]
  have hllm : call_llm_fact chat loads allow_idk use_few_shots max_attempts fact false
      = (none, [(fact, "Unable to parse JSON")]) := by
    simp only [call_llm_fact, hcall, CallRes.toResp]
  refine ⟨?_, ?_, ?_, ?_⟩ <;>
    simp [runItemFact, hllm, processOne, dictHasKey_dictSet_self]

/-- Witness for C2 with an always-`"not json"` stub at `max_attempts = 3`. -/
theorem C2_exhaustion_witness :
    (runItemFact (fun _ _ => .ok ("not json".data)) miniJson false false 3 (fun _ _ => none)
        "q1" ("f1".data) ⟨[], []⟩).2.2 = [("f1".data, "Unable to parse JSON")] :=
  (C2_exhaustion (fun _ _ => .ok ("not json".data)) miniJson (fun _ _ => none) false false 3
    (by decide) "q1" ("f1".data) ⟨[], []⟩
    (fun _ _ => ⟨"not json".data, rfl, rfl, rfl⟩)).2.2.1

/-- C2 counterexample: with a stub whose responses are malformed on all three
rounds, the failure-log entry is appended as the claim says — but the
checkpoint key for the fact id *is* written (the `None` sentinel), where
the claim asserts that no key is written. -/
theorem C2_sentinel_cex :
    dictHasKey (runItemFact (fun _ _ => .ok ("not json".data)) miniJson false false 3
        (fun _ _ => none) "q1" ("f1".data) ⟨[], []⟩).1.ckpt "q1" = true
    ∧ (runItemFact (fun _ _ => .ok ("not json".data)) miniJson false false 3
        (fun _ _ => none) "q1" ("f1".data) ⟨[], []⟩).1.ckpt
      = [("q1", CkptVal.sentinel)] := ⟨rfl, rfl⟩

/-- Any result the retry loop accepts in-loop passed both containment checks,
and the loop returns at once: the total number of endpoint calls made
equals the accepting round (no call follows acceptance).  The invariant
`c + round = rd + n + 1` specialises to `c = rd` at the entry values
`round = 1`, `n = 0`. -/
theorem callAux_accepted (chat : Nat → List Msg → Except Unit (List Char))
    (loads : List Char → Option JVal) (trF : Option (List Char → List Char)) :
    ∀ r round n msgs lastRaw j rd c,
      callAux chat loads trF r round n msgs lastRaw = .accepted j rd c →
      jsonHasKey j "answer" = .ok true ∧ jsonHasKey j "reasoning" = .ok true
        ∧ c + round = rd + n + 1 := by
  intro r
  induction r with
  | zero =>
    intro round n msgs lastRaw j rd c h
    rcases hl : loads lastRaw with _ | jj <;> simp [callAux, hl] at h
  | succ r' ih =>
    intro round n msgs lastRaw j rd c h
    simp only [callAux] at h
    rcases hok : chat round msgs with e | raw0 <;> simp only [hok] at h
    · obtain ⟨h1, h2, h3⟩ := ih _ _ _ _ _ _ _ h
      exact ⟨h1, h2, by omega⟩
    · rcases hload : loads (extractJson (pyStrip raw0)) with _ | jj <;> simp only [hload] at h
      · obtain ⟨h1, h2, h3⟩ := ih _ _ _ _ _ _ _ h
        exact ⟨h1, h2, by omega⟩
      · rcases hans : jsonHasKey jj "answer" with e | a <;> simp only [hans] at h
        · obtain ⟨h1, h2, h3⟩ := ih _ _ _ _ _ _ _ h
          exact ⟨h1, h2, by omega⟩
        · cases a with
          | false =>
            rw [if_neg Bool.false_ne_true] at h
            obtain ⟨h1, h2, h3⟩ := ih _ _ _ _ _ _ _ h
            exact ⟨h1, h2, by omega⟩
          | true =>
            rw [if_pos rfl] at h
            rcases hreas : jsonHasKey jj "reasoning" with e | b <;> simp only [hreas] at h
            · obtain ⟨h1, h2, h3⟩ := ih _ _ _ _ _ _ _ h
              exact ⟨h1, h2, by omega⟩
            · cases b with
              | false =>
                rw [if_neg Bool.false_ne_true] at h
                obtain ⟨h1, h2, h3⟩ := ih _ _ _ _ _ _ _ h
                exact ⟨h1, h2, by omega⟩
              | true =>
                rw [if_pos rfl] at h
                injection h with hj hrd hc
                subst hj
                subst hrd
                subst hc
                exact ⟨hans, hreas, by omega⟩

/-- C3 (amended): any result the call loop ACCEPTS in-loop (line 104)
satisfies both Python containment checks `'answer' in resp_json` and
`'reasoning' in resp_json`, and the loop returns it immediately — the
total number of endpoint calls equals the accepting round.  The claim as
frozen fails for the other non-`None` source of results: after
exhausting its rounds, `_call` additionally tries a bare
`json.loads(last_raw)` (line 123) whose value is returned without any
key check (see the counterexample). -/
theorem C3_acceptance (chat : Nat → List Msg → Except Unit (List Char))
    (loads : List Char → Option JVal) (trF : Option (List Char → List Char))
    (max_attempts : Nat) (messages : List Msg) (j : JVal) (rd c : Nat)
    (h : SimpleRagClient_call chat loads trF max_attempts messages = .accepted j rd c) :
    jsonHasKey j "answer" = .ok true ∧ jsonHasKey j "reasoning" = .ok true ∧ c = rd := by
  have hh := callAux_accepted chat loads trF max_attempts 1 0 messages [] j rd c h
  exact ⟨hh.1, hh.2.1, by omega⟩

/-- Witness for C3: a stub that answers a well-formed object on round one. -/
theorem C3_acceptance_witness :
    jsonHasKey (JVal.obj [("answer", JVal.str "yes"), ("reasoning", JVal.str "ok")])
        "answer" = .ok true
    ∧ jsonHasKey (JVal.obj [("answer", JVal.str "yes"), ("reasoning", JVal.str "ok")])
        "reasoning" = .ok true
    ∧ (1 : Nat) = 1 :=
  C3_acceptance (fun _ _ => .ok ("\x7b\"answer\": \"yes\", \"reasoning\": \"ok\"\x7d".data))
    miniJson none 3 []
    (JVal.obj [("answer", JVal.str "yes"), ("reasoning", JVal.str "ok")]) 1 1 rfl

/-- C3 counterexample: a stub that always returns `{"answer": "yes"}` —
valid JSON missing the `reasoning` key — is rejected in-loop on all three
rounds, but the post-loop bare `json.loads(last_raw)` then parses it and
`_call` returns it as a non-`None` result lacking the `reasoning` key,
contradicting the claim's acceptance contract. -/
theorem C3_final_parse_cex :
    SimpleRagClient_call (fun _ _ => .ok ("\x7b\"answer\": \"yes\"\x7d".data)) miniJson none 3 []
      = .finalParse (JVal.obj [("answer", JVal.str "yes")]) 3
    ∧ (CallRes.finalParse (JVal.obj [("answer", JVal.str "yes")]) 3).toResp
      = some (JVal.obj [("answer", JVal.str "yes")])
    ∧ jsonHasKey (JVal.obj [("answer", JVal.str "yes")]) "reasoning" = .ok false :=
  ⟨rfl, rfl, rfl⟩

/-- A successful `processOne` step sets exactly the item's key, to a value of
the stored shape, and leaves the rest of the checkpoint unchanged. -/
theorem processOne_ok_set (cov : String → JVal → Option ℚ) (st : OrchState) (qid : String)
    (pl : Option (List Char × JVal)) (st' : OrchState)
    (h : processOne cov st qid pl = .ok st') :
    ∃ w, st'.ckpt = dictSet st.ckpt qid w ∧ storedShape w := by
  cases pl with
  | none =>
    refine ⟨.sentinel, ?_, Or.inl rfl⟩
    simp only [processOne] at h
    cases h
    rfl
  | some pj =>
    obtain ⟨p, j⟩ := pj
    cases j with
    | obj kvs =>
      cases hget : dictGet kvs "answer" with
      | none => simp [processOne, hget] at h
      | some v =>
        cases v with
        | str a =>
          refine ⟨.dict [("answer", .vs (pyLowerS a)),
                         ("reasoning", .vj ((dictGet kvs "reasoning").getD (.str ""))),
                         ("coverage", .vc (cov qid (JVal.obj kvs)))], ?_, ?_⟩
          · simp only [processOne, hget] at h
            cases h
            rfl
          · exact Or.inr ⟨a, _, _, rfl⟩
        | obj o => simp [processOne, hget] at h
        | arr l => simp [processOne, hget] at h
        | num n => simp [processOne, hget] at h
        | bool b => simp [processOne, hget] at h
        | null => simp [processOne, hget] at h
    | str s => simp [processOne] at h
    | arr l => simp [processOne] at h
    | num n => simp [processOne] at h
    | bool b => simp [processOne] at h
    | null => simp [processOne] at h

/-- Keys present in the checkpoint are never removed by the result loop. -/
theorem processBatch_keepKey (cov : String → JVal → Option ℚ) :
    ∀ (items : List (String × WorkerRes)) (st : OrchState) (q : String),
      dictHasKey st.ckpt q = true →
      dictHasKey (processBatch cov st items).1.ckpt q = true := by
  intro items
  induction items with
  | nil =>
    intro st q h
    simpa [processBatch] using h
  | cons it rest ih =>
    intro st q h
    obtain ⟨qid, res⟩ := it
    cases res with
    | error e => simpa [processBatch] using h
    | ok pl =>
      cases hpo : processOne cov st qid pl with
      | error e => simpa [processBatch, hpo] using h
      | ok st2 =>
        obtain ⟨w, hw, _⟩ := processOne_ok_set cov st qid pl st2 hpo
        have h2 : dictHasKey st2.ckpt q = true := by
          rw [hw]
          exact dictHasKey_dictSet_mono st.ckpt qid q w h
        simpa [processBatch, hpo] using ih st2 q h2

/-- C4 counterexample: an exception raised inside a worker (here the
fragment retriever's `AttributeError`, cf. C6) is re-raised by
`fut.result()` at line 143 with no surrounding `try`, so the batch loop
aborts: the second remaining item is never processed and gets no
checkpoint entry, contradicting "the batch loop over the remaining items
always continues to completion". -/
theorem C4_worker_exception_cex :
    (processBatch (fun _ _ => none) ⟨[], []⟩
        [("q1", .error (.attributeError "splitter")),
         ("q2", .ok (some ("p".data,
            JVal.obj [("answer", JVal.str "yes"), ("reasoning", JVal.str "r")])))]).2
      = some (.attributeError "splitter")
    ∧ dictHasKey (processBatch (fun _ _ => none) ⟨[], []⟩
        [("q1", .error (.attributeError "splitter")),
         ("q2", .ok (some ("p".data,
            JVal.obj [("answer", JVal.str "yes"), ("reasoning", JVal.str "r")])))]).1.ckpt "q2"
      = false := ⟨rfl, rfl⟩

/-- C4 (amended): failures that the judgment client surfaces as a returned
value — a `None` response (terminal parse failure) or a parsed response
object with a string `'answer'` — are contained: the result loop
processes every remaining item to completion and writes a checkpoint
entry for each.  However, an exception thrown inside a worker (retriever
errors, invalid mode) propagates out of `fut.result()`, and a response
whose parsed value lacks a string `'answer'` key raises in the loop body
itself (`KeyError`/`TypeError`/`AttributeError`); either aborts the
batch, so containment does not extend to them (see the counterexample). -/
theorem C4_containment (cov : String → JVal → Option ℚ) (st : OrchState)
    (items : List (String × WorkerRes)) (h : ∀ x ∈ items, okShaped x) :
    (processBatch cov st items).2 = none
    ∧ ∀ q pr, (q, pr) ∈ items → dictHasKey (processBatch cov st items).1.ckpt q = true := by
  induction items generalizing st with
  | nil =>
    refine ⟨rfl, ?_⟩
    intro q pr h'
    cases h'
  | cons it rest ih =>
    obtain ⟨qid, res⟩ := it
    obtain ⟨pl, hres, hshape⟩ := h (qid, res) (List.mem_cons_self _ _)
    simp only at hres
    subst hres
    have hstep : ∃ st', processOne cov st qid pl = .ok st' ∧ dictHasKey st'.ckpt qid = true := by
      rcases hshape with rfl | ⟨p, kvs, a, rfl, hget⟩
      · exact ⟨_, rfl, by simp [processOne, dictHasKey_dictSet_self]⟩
      · have hpo : processOne cov st qid (some (p, JVal.obj kvs))
            = .ok { ckpt := dictSet st.ckpt qid
                      (.dict [("answer", .vs (pyLowerS a)),
                              ("reasoning", .vj ((dictGet kvs "reasoning").getD (.str ""))),
                              ("coverage", .vc (cov qid (JVal.obj kvs)))]),
                    outputs := st.outputs
                      ++ [⟨p, pyLowerS a, (dictGet kvs "reasoning").getD (.str ""),
                           JVal.obj kvs⟩] } := by
          simp only [processOne, hget]
        exact ⟨_, hpo, by simp [dictHasKey_dictSet_self]⟩
    obtain ⟨st', hok, hkey⟩ := hstep
    have hrest := ih st' (fun x hx => h x (List.mem_cons_of_mem _ hx))
    refine ⟨by simpa [processBatch, hok] using hrest.1, ?_⟩
    intro q pr hmem
    rcases List.mem_cons.mp hmem with heq | hmem'
    · have hq : q = qid := congrArg Prod.fst heq
      subst hq
      simpa [processBatch, hok] using processBatch_keepKey cov rest st' q hkey
    · simpa [processBatch, hok] using hrest.2 q pr hmem'

/-- Witness for C4: one item whose worker returned the client's `None`. -/
theorem C4_containment_witness :
    (processBatch (fun _ _ => none) ⟨[], []⟩ [("q1", .ok none)]).2 = none :=
  (C4_containment (fun _ _ => none) ⟨[], []⟩ [("q1", .ok none)]
    (by
      intro x hx
      rw [List.mem_singleton] at hx
      subst hx
      exact ⟨none, rfl, Or.inl rfl⟩)).1

/-- C9 counterexample: the value stored on success (line 169 of
`src/evaluate.py`) is a dict with THREE keys — `answer`, `reasoning` and
`coverage` — not two; and `answer` is only lowercased, never validated,
so a model answer of `"Maybe"` is stored as `"maybe"`, which is not one
of the three canonical values. -/
theorem C9_value_shape_cex :
    processOne (fun _ _ => none) ⟨[], []⟩ "q1"
        (some ("p".data, JVal.obj [("answer", JVal.str "Maybe"), ("reasoning", JVal.str "r")]))
      = .ok ⟨[("q1", CkptVal.dict
              [("answer", .vs "maybe"), ("reasoning", .vj (JVal.str "r")),
               ("coverage", .vc none)])],
             [⟨"p".data, "maybe", JVal.str "r",
               JVal.obj [("answer", JVal.str "Maybe"), ("reasoning", JVal.str "r")]⟩]⟩
    ∧ ckptKeys (CkptVal.dict
          [("answer", .vs "maybe"), ("reasoning", .vj (JVal.str "r")), ("coverage", .vc none)])
        = some ["answer", "reasoning", "coverage"]
    ∧ (["answer", "reasoning", "coverage"] : List String) ≠ ["answer", "reasoning"]
    ∧ "maybe" ∉ (["yes", "no", "idk"] : List String) := ⟨rfl, rfl, by decide, by decide⟩

/-- C9 (amended): every checkpoint value the result loop stores is either the
`None` failure sentinel or the dict of line 169, which has exactly the
three keys `answer`, `reasoning`, `coverage` in that order, with
`answer` the lowercased model-reported answer string (not validated
against `yes`/`no`/`idk`); values already present in the loaded
checkpoint pass through unchanged. -/
theorem C9_checkpoint_shape (cov : String → JVal → Option ℚ)
    (items : List (String × WorkerRes)) (st' : OrchState) (e : Option PyErr)
    (q : String) (v : CkptVal) :
    ∀ st : OrchState, processBatch cov st items = (st', e) →
      dictGet st'.ckpt q = some v →
      dictGet st.ckpt q = some v ∨ storedShape v := by
  induction items with
  | nil =>
    intro st h hv
    simp only [processBatch] at h
    injection h with h1 h2
    subst h1
    exact Or.inl hv
  | cons it rest ih =>
    intro st h hv
    obtain ⟨qid, res⟩ := it
    cases res with
    | error err =>
      simp only [processBatch] at h
      injection h with h1 h2
      subst h1
      exact Or.inl hv
    | ok pl =>
      cases hpo : processOne cov st qid pl with
      | error err =>
        simp only [processBatch, hpo] at h
        injection h with h1 h2
        subst h1
        exact Or.inl hv
      | ok st2 =>
        simp only [processBatch, hpo] at h
        obtain ⟨w, hw, hws⟩ := processOne_ok_set cov st qid pl st2 hpo
        rcases ih st2 h hv with hold | hshape
        · rw [hw] at hold
          by_cases hq : qid = q
          · subst hq
            rw [dictGet_dictSet_self] at hold
            injection hold with hv2
            exact Or.inr (hv2 ▸ hws)
          · rw [dictGet_dictSet_ne st.ckpt qid q w hq] at hold
            exact Or.inl hold
        · exact Or.inr hshape

/-- Witness for C9: one item stored as the `None` sentinel. -/
theorem C9_checkpoint_shape_witness :
    dictGet (⟨[], []⟩ : OrchState).ckpt "q1" = some CkptVal.sentinel
    ∨ storedShape CkptVal.sentinel :=
  C9_checkpoint_shape (fun _ _ => none) [("q1", .ok none)] ⟨[("q1", CkptVal.sentinel)], []⟩
    none "q1" CkptVal.sentinel ⟨[], []⟩ rfl rfl
